import Mathlib

/-!
Shallow embedding of the stereo WebSocket server (`server.js`): the
per-role frame buffers and pairing matcher (`attemptStereoPair`), the
triangulation core of `processStereoPair`, the broadcast loop, and the
per-connection message handler with role registration.

Timestamps and sequence numbers are modelled as `Int` (JS millisecond
integers), pixel coordinates and calibration entries as `ℚ` (exact
arithmetic standing in for JS numbers), and decoded images as opaque
`Nat` handles.
-/

namespace StereoServer

/-- One element of a role buffer: `{ seq, timestamp, matColor }` as pushed
by the frame-message handler. `matColor` is an opaque handle for the
decoded OpenCV Mat. -/
structure FrameRecord where
  seq : Int
  timestamp : Int
  matColor : Nat
deriving Repr, DecidableEq

/-- Placeholder record used as the `List.getD` default; never the value
actually selected in reachable branches. -/
def dummyFrame : FrameRecord := ⟨0, 0, 0⟩

/-- The two per-role frame buffers `frameBuffers.front` / `frameBuffers.back`. -/
structure Buffers where
  front : List FrameRecord
  back : List FrameRecord
deriving Repr, DecidableEq

/-- JavaScript `Number.MAX_SAFE_INTEGER`, the initial value of `smallestDt`. -/
def wsMaxSafeInteger : Int := 2 ^ 53 - 1

/-- The scan loop of `attemptStereoPair`: for each back-buffer element,
`dt = Math.abs(back[i].timestamp - frontFrame.timestamp)`; the running
`(bestIdx, smallestDt)` pair is updated whenever `dt < smallestDt`
(strict, so the earliest-scanned element wins ties). `i` is the index of
the head of the remaining list; `bestIdx` starts at `-1`. -/
def scanBackAux (ft : Int) : List FrameRecord → Nat → Int → Int → Int × Int
  | [], _, bestIdx, smallestDt => (bestIdx, smallestDt)
  | b :: rest, i, bestIdx, smallestDt =>
    let dt := |b.timestamp - ft|
    if dt < smallestDt then scanBackAux ft rest (i + 1) (Int.ofNat i) dt
    else scanBackAux ft rest (i + 1) bestIdx smallestDt

/-- `attemptStereoPair` from `server.js`: if either buffer is empty do
nothing; otherwise scan the whole back buffer for the timestamp nearest
the front head. If the smallest difference exceeds 200 ms, shift the
front head away and leave the back buffer alone; otherwise shift the
front head, splice the best back element out at its scanned index, and
hand the pair to stereo processing (returned here as the `Option` pair). -/
def attemptStereoPair : Buffers → Buffers × Option (FrameRecord × FrameRecord)
  | ⟨[], back⟩ => (⟨[], back⟩, none)
  | ⟨f :: fs, []⟩ => (⟨f :: fs, []⟩, none)
  | ⟨frontFrame :: restFront, b0 :: bs⟩ =>
    let back := b0 :: bs
    let scanned := scanBackAux frontFrame.timestamp back 0 (-1) wsMaxSafeInteger
    if scanned.2 > 200 then (⟨restFront, back⟩, none)
    else (⟨restFront, back.eraseIdx scanned.1.toNat⟩,
          some (frontFrame, back.getD scanned.1.toNat dummyFrame))

/-- Recursive characterisation of the scan: the first index attaining the
minimum absolute timestamp difference, together with that minimum.
Head wins ties (`dt ≤ m`). Proof-side companion to `scanBackAux`. -/
def firstArgmin (ft : Int) : List FrameRecord → Option (Nat × Int)
  | [] => none
  | b :: rest =>
    let dt := |b.timestamp - ft|
    match firstArgmin ft rest with
    | none => some (0, dt)
    | some (j, m) => if dt ≤ m then some (0, dt) else some (j + 1, m)

theorem firstArgmin_eq_none (ft : Int) (bs : List FrameRecord) :
    firstArgmin ft bs = none ↔ bs = [] := by
  cases bs with
  | nil => simp [firstArgmin]
  | cons b rest =>
    simp only [firstArgmin]
    cases h : firstArgmin ft rest with
    | none => simp
    | some p =>
      cases p with
      | mk j m => by_cases hdt : |b.timestamp - ft| ≤ m <;> simp [hdt]

theorem scanBackAux_eq (ft : Int) (bs : List FrameRecord) :
    ∀ (i : Nat) (b0 d0 : Int), scanBackAux ft bs i b0 d0 =
      match firstArgmin ft bs with
      | none => (b0, d0)
      | some (j, m) => if m < d0 then (Int.ofNat (i + j), m) else (b0, d0) := by
  induction bs with
  | nil => intro i b0 d0; rfl
  | cons b rest ih =>
    intro i b0 d0
    simp only [scanBackAux, firstArgmin]
    cases h : firstArgmin ft rest with
    | none =>
      by_cases hdt : |b.timestamp - ft| < d0 <;> simp [hdt, ih, h]
    | some p =>
      cases p with
      | mk j m =>
        by_cases hdt : |b.timestamp - ft| < d0
        · by_cases hm : |b.timestamp - ft| ≤ m
          · have hnm : ¬ m < |b.timestamp - ft| := by omega
            simp [hdt, hm, ih, h, hnm]
          · have hm2 : m < |b.timestamp - ft| := by omega
            have hm3 : m < d0 := by omega
            have : i + 1 + j = i + (j + 1) := by omega
            simp [hdt, hm, ih, h, hm2, hm3, this]
        · by_cases hm : |b.timestamp - ft| ≤ m
          · have hnm : ¬ m < d0 := by omega
            simp [hdt, hm, ih, h, hnm]
          · have : i + 1 + j = i + (j + 1) := by omega
            simp [hdt, hm, ih, h, this]

theorem firstArgmin_spec (ft : Int) (bs : List FrameRecord) (j : Nat) (m : Int)
    (h : firstArgmin ft bs = some (j, m)) :
    j < bs.length ∧ m = |(bs.getD j dummyFrame).timestamp - ft| ∧
    (∀ k, k < bs.length → m ≤ |(bs.getD k dummyFrame).timestamp - ft|) ∧
    (∀ k, k < j → m < |(bs.getD k dummyFrame).timestamp - ft|) := by
  induction bs generalizing j m with
  | nil => simp [firstArgmin] at h
  | cons b rest ih =>
    simp only [firstArgmin] at h
    cases hr : firstArgmin ft rest with
    | none =>
      rw [hr] at h
      have hrest : rest = [] := (firstArgmin_eq_none ft rest).mp hr
      simp only [Option.some.injEq, Prod.mk.injEq] at h
      obtain ⟨hj, hm⟩ := h
      subst hj hrest
      refine ⟨by simp, by simp [hm], ?_, by omega⟩
      intro k hk
      simp only [List.length_cons, List.length_nil] at hk
      have hk0 : k = 0 := by omega
      subst hk0
      simp [hm]
    | some p =>
      cases p with
      | mk j0 m0 =>
        rw [hr] at h
        obtain ⟨hlen, hval, hmin, hfst⟩ := ih j0 m0 hr
        by_cases hdt : |b.timestamp - ft| ≤ m0
        · simp only [if_pos hdt, Option.some.injEq, Prod.mk.injEq] at h
          obtain ⟨hj, hm⟩ := h
          subst hj
          refine ⟨by simp, by simp [hm], ?_, by omega⟩
          intro k hk
          cases k with
          | zero => simp [hm]
          | succ k2 =>
            have : k2 < rest.length := by simpa using hk
            have := hmin k2 this
            simp only [List.getD_cons_succ]
            omega
        · simp only [if_neg hdt, Option.some.injEq, Prod.mk.injEq] at h
          obtain ⟨hj, hm⟩ := h
          subst hm
          subst hj
          refine ⟨by simpa using hlen, by simpa using hval, ?_, ?_⟩
          · intro k hk
            cases k with
            | zero => simp; omega
            | succ k2 =>
              have : k2 < rest.length := by simpa using hk
              have := hmin k2 this
              simpa using this
          · intro k hk
            cases k with
            | zero => simp; omega
            | succ k2 =>
              have : k2 < j0 := by omega
              have := hfst k2 this
              simpa using this

/-- A HOG detection rectangle in rectified image coordinates, as returned
by `hog.detectMultiScale`. -/
structure Rect where
  x : ℚ
  y : ℚ
  width : ℚ
  height : ℚ
deriving Repr, DecidableEq

/-- A 2D detection-box center. -/
structure Point2D where
  x : ℚ
  y : ℚ
deriving Repr, DecidableEq

/-- One entry of the broadcast `result3D` array. -/
structure Position3D where
  x : ℚ
  y : ℚ
  z : ℚ
deriving Repr, DecidableEq

/-- The calibration values read inside `processStereoPair`: `fx`, `fy`,
`cx`, `cy` from `cameraMatrix1` and the x component of the translation
vector `T`. -/
structure Calib where
  fx : ℚ
  fy : ℚ
  cx : ℚ
  cy : ℚ
  tx : ℚ
deriving Repr, DecidableEq

/-- The sentinel entry `{ x: 0, y: 0, z: -1 }`. -/
def sentinelPos : Position3D := ⟨0, 0, -1⟩

/-- Default for `List.getD` on positions; only used at in-range indices. -/
def dummyPos : Position3D := ⟨0, 0, 0⟩

/-- Default for `List.getD` on rectangles; only used at in-range indices. -/
def dummyRect : Rect := ⟨0, 0, 0, 0⟩

/-- Default for `List.getD` on points; only used at in-range indices. -/
def dummyPoint : Point2D := ⟨0, 0⟩

/-- Box-to-center conversion: `{ x: r.x + r.width/2, y: r.y + r.height/2 }`. -/
def center (r : Rect) : Point2D := ⟨r.x + r.width / 2, r.y + r.height / 2⟩

/-- The per-correspondence triangulation of `processStereoPair`:
disparity `d = ptL.x - ptR.x`; if `d ≤ 0` push the sentinel, otherwise
`Z = fx * B / d`, `X = (ptL.x - cx) * Z / fx`, `Y = (ptL.y - cy) * Z / fy`
with `B = |T.at(0,0)|`. -/
def triangulate (c : Calib) (ptL ptR : Point2D) : Position3D :=
  let d := ptL.x - ptR.x
  if d ≤ 0 then sentinelPos
  else
    let B := |c.tx|
    let Z := c.fx * B / d
    let X := (ptL.x - c.cx) * Z / c.fx
    let Y := (ptL.y - c.cy) * Z / c.fy
    ⟨X, Y, Z⟩

/-- `numDetected = Math.min(centersL.length, centersR.length, 6)`. -/
def numDetected (centersL centersR : List Point2D) : Nat :=
  min (min centersL.length centersR.length) 6

/-- The `result3D` array built by `processStereoPair` from the left/right
detection boxes: centers of both detection sets, index-paired
triangulation of the first `numDetected` centers, then sentinel padding
up to six entries. -/
def result3D (c : Calib) (foundL foundR : List Rect) : List Position3D :=
  let centersL := foundL.map center
  let centersR := foundR.map center
  let n := numDetected centersL centersR
  let rs := (List.range n).map fun i =>
    triangulate c (centersL.getD i dummyPoint) (centersR.getD i dummyPoint)
  rs ++ List.replicate (6 - rs.length) sentinelPos

theorem triangulate_unfold (c : Calib) (ptL ptR : Point2D) :
    triangulate c ptL ptR =
      if ptL.x - ptR.x ≤ 0 then sentinelPos
      else ⟨(ptL.x - c.cx) * (c.fx * |c.tx| / (ptL.x - ptR.x)) / c.fx,
            (ptL.y - c.cy) * (c.fx * |c.tx| / (ptL.x - ptR.x)) / c.fy,
            c.fx * |c.tx| / (ptL.x - ptR.x)⟩ := rfl

theorem triangulate_pos (c : Calib) (ptL ptR : Point2D) (hd : 0 < ptL.x - ptR.x) :
    (triangulate c ptL ptR).z = c.fx * |c.tx| / (ptL.x - ptR.x) ∧
    (triangulate c ptL ptR).x = (ptL.x - c.cx) * (triangulate c ptL ptR).z / c.fx ∧
    (triangulate c ptL ptR).y = (ptL.y - c.cy) * (triangulate c ptL ptR).z / c.fy := by
  have hnd : ¬ (ptL.x - ptR.x ≤ 0) := by linarith
  rw [triangulate_unfold, if_neg hnd]
  exact ⟨rfl, rfl, rfl⟩

theorem triangulate_nonpos (c : Calib) (ptL ptR : Point2D) (hd : ptL.x - ptR.x ≤ 0) :
    triangulate c ptL ptR = sentinelPos := by
  rw [triangulate_unfold, if_pos hd]

theorem result3D_length (c : Calib) (l r : List Rect) :
    (result3D c l r).length = 6 := by
  simp only [result3D, numDetected, List.length_append, List.length_map,
    List.length_range, List.length_replicate]
  omega

theorem result3D_entry (c : Calib) (l r : List Rect) (i : Nat)
    (hi : i < numDetected (l.map center) (r.map center)) :
    (result3D c l r).getD i dummyPos =
      triangulate c (center (l.getD i dummyRect)) (center (r.getD i dummyRect)) := by
  have hil : i < l.length := by
    simp only [numDetected, List.length_map] at hi
    omega
  have hir : i < r.length := by
    simp only [numDetected, List.length_map] at hi
    omega
  have hcl : (l.map center)[i]?.getD dummyPoint = center (l[i]?.getD dummyRect) := by
    rw [List.getElem?_map, List.getElem?_eq_getElem hil]
    simp
  have hcr : (r.map center)[i]?.getD dummyPoint = center (r[i]?.getD dummyRect) := by
    rw [List.getElem?_map, List.getElem?_eq_getElem hir]
    simp
  rw [result3D]
  simp only [List.getD_eq_getElem?_getD]
  rw [List.getElem?_append_left (by simpa using hi), List.getElem?_map,
    List.getElem?_range (by simpa using hi)]
  simp only [Option.map_some', Option.getD_some]
  rw [hcl, hcr]

theorem result3D_drop (c : Calib) (l r : List Rect) :
    (result3D c l r).drop (numDetected (l.map center) (r.map center)) =
      List.replicate (6 - numDetected (l.map center) (r.map center)) sentinelPos := by
  have hlen : ((List.range (numDetected (l.map center) (r.map center))).map fun i =>
      triangulate c ((l.map center).getD i dummyPoint)
        ((r.map center).getD i dummyPoint)).length =
      numDetected (l.map center) (r.map center) := by
    simp
  show (((List.range (numDetected (l.map center) (r.map center))).map fun i =>
      triangulate c ((l.map center).getD i dummyPoint)
        ((r.map center).getD i dummyPoint)) ++
      List.replicate (6 -
        ((List.range (numDetected (l.map center) (r.map center))).map fun i =>
          triangulate c ((l.map center).getD i dummyPoint)
            ((r.map center).getD i dummyPoint)).length) sentinelPos).drop
      (numDetected (l.map center) (r.map center)) = _
  rw [List.drop_left' hlen, hlen]

/-- C1: when both buffers are non-empty, `attemptStereoPair` pairs the
front-buffer head `f` with the back-buffer element at the first index `j`
minimising `|timestamp - f.timestamp|`; when that minimum is at most
200 ms, `f` is shifted off the front buffer, the back element is spliced
out at index `j`, and exactly the pair `(f, back[j])` is handed to stereo
processing. -/
theorem pair_matches_first_nearest_back (f : FrameRecord) (fs bs : List FrameRecord)
    (j : Nat) (hj : j < bs.length)
    (hmin : ∀ k, k < bs.length →
      |(bs.getD j dummyFrame).timestamp - f.timestamp| ≤
        |(bs.getD k dummyFrame).timestamp - f.timestamp|)
    (hfirst : ∀ k, k < j →
      |(bs.getD j dummyFrame).timestamp - f.timestamp| <
        |(bs.getD k dummyFrame).timestamp - f.timestamp|)
    (hwin : |(bs.getD j dummyFrame).timestamp - f.timestamp| ≤ 200) :
    attemptStereoPair ⟨f :: fs, bs⟩ =
      (⟨fs, bs.eraseIdx j⟩, some (f, bs.getD j dummyFrame)) := by
  cases bs with
  | nil => simp at hj
  | cons b0 bs2 =>
    cases hfa : firstArgmin f.timestamp (b0 :: bs2) with
    | none => exact absurd ((firstArgmin_eq_none _ _).mp hfa) (by simp)
    | some p =>
      obtain ⟨j0, m0⟩ := p
      obtain ⟨hlen0, hval0, hmin0, hfst0⟩ := firstArgmin_spec _ _ _ _ hfa
      have hm0j : m0 ≤ |((b0 :: bs2).getD j dummyFrame).timestamp - f.timestamp| :=
        hmin0 j hj
      have hjm0 : |((b0 :: bs2).getD j dummyFrame).timestamp - f.timestamp| ≤ m0 := by
        have := hmin j0 hlen0
        omega
      have heqm : m0 = |((b0 :: bs2).getD j dummyFrame).timestamp - f.timestamp| := by
        omega
      have hj0 : j0 = j := by
        rcases lt_trichotomy j0 j with hlt | heq | hgt
        · have := hfirst j0 hlt
          omega
        · exact heq
        · have := hfst0 j hgt
          omega
      subst hj0
      have hmw : m0 < wsMaxSafeInteger := by
        have : (200 : Int) < wsMaxSafeInteger := by norm_num [wsMaxSafeInteger]
        omega
      have hm200 : ¬ m0 > 200 := by omega
      simp only [attemptStereoPair]
      rw [scanBackAux_eq, hfa]
      simp [hmw, hm200]

/-- C1 witness: the specification example — front frame at t = 1000,
back frames at t = 900, 1150, 1300; the t = 900 frame (dt = 100) is
selected and removed, t = 1150 and t = 1300 stay. -/
theorem pair_matches_first_nearest_back_witness :
    attemptStereoPair ⟨[⟨1, 1000, 10⟩], [⟨2, 900, 20⟩, ⟨3, 1150, 21⟩, ⟨4, 1300, 22⟩]⟩ =
      (⟨[], [⟨3, 1150, 21⟩, ⟨4, 1300, 22⟩]⟩, some (⟨1, 1000, 10⟩, ⟨2, 900, 20⟩)) := by
  have h := pair_matches_first_nearest_back ⟨1, 1000, 10⟩ []
    [⟨2, 900, 20⟩, ⟨3, 1150, 21⟩, ⟨4, 1300, 22⟩] 0
    (by decide) (by decide) (by decide) (by decide)
  exact h.trans (by decide)

/-- C2: when the smallest timestamp difference between the front head and
every back frame exceeds 200 ms, `attemptStereoPair` shifts the front
head away, leaves the back buffer untouched, and emits no pair. -/
theorem stale_front_dropped_back_untouched (f : FrameRecord) (fs bs : List FrameRecord)
    (hne : bs ≠ [])
    (hall : ∀ k, k < bs.length →
      200 < |(bs.getD k dummyFrame).timestamp - f.timestamp|) :
    attemptStereoPair ⟨f :: fs, bs⟩ = (⟨fs, bs⟩, none) := by
  cases bs with
  | nil => exact absurd rfl hne
  | cons b0 bs2 =>
    cases hfa : firstArgmin f.timestamp (b0 :: bs2) with
    | none => exact absurd ((firstArgmin_eq_none _ _).mp hfa) (by simp)
    | some p =>
      obtain ⟨j0, m0⟩ := p
      obtain ⟨hlen0, hval0, hmin0, hfst0⟩ := firstArgmin_spec _ _ _ _ hfa
      have h200 : 200 < m0 := by
        have := hall j0 hlen0
        omega
      have hbig : (200 : Int) < wsMaxSafeInteger := by norm_num [wsMaxSafeInteger]
      simp only [attemptStereoPair]
      rw [scanBackAux_eq, hfa]
      by_cases hmw : m0 < wsMaxSafeInteger
      · simp [hmw, h200]
      · simp [hmw, hbig]

/-- C2 witness: the specification example — front frame at t = 1000 and a
single back frame at t = 1300 (dt = 300 > 200): the front frame is
dropped, the back buffer is unchanged, no pair is emitted. -/
theorem stale_front_dropped_back_untouched_witness :
    attemptStereoPair ⟨[⟨1, 1000, 10⟩], [⟨2, 1300, 20⟩]⟩ =
      (⟨[], [⟨2, 1300, 20⟩]⟩, none) :=
  stale_front_dropped_back_untouched ⟨1, 1000, 10⟩ [] [⟨2, 1300, 20⟩]
    (by decide) (by decide)

/-- C3: every `result3D` array handed to the broadcaster has exactly six
entries, and the slots after the triangulated correspondences are filled
with the sentinel (0, 0, -1), appended after all real entries. -/
theorem resultFrame_always_six_entries (c : Calib) (l r : List Rect) :
    (result3D c l r).length = 6 ∧
    (result3D c l r).drop (numDetected (l.map center) (r.map center)) =
      List.replicate (6 - numDetected (l.map center) (r.map center)) sentinelPos :=
  ⟨result3D_length c l r, result3D_drop c l r⟩

/-- C4: each triangulated correspondence with positive disparity
`d = centerLeft.x - centerRight.x` yields a position with exactly
`Z = fx * B / d`, `X = (centerLeft.x - cx) * Z / fx` and
`Y = (centerLeft.y - cy) * Z / fy`, where `B = |tx|`. -/
theorem triangulation_pinhole_formulas (c : Calib) (l r : List Rect) (i : Nat)
    (hi : i < numDetected (l.map center) (r.map center))
    (hd : 0 < (center (l.getD i dummyRect)).x - (center (r.getD i dummyRect)).x) :
    ((result3D c l r).getD i dummyPos).z =
      c.fx * |c.tx| /
        ((center (l.getD i dummyRect)).x - (center (r.getD i dummyRect)).x) ∧
    ((result3D c l r).getD i dummyPos).x =
      ((center (l.getD i dummyRect)).x - c.cx) *
        ((result3D c l r).getD i dummyPos).z / c.fx ∧
    ((result3D c l r).getD i dummyPos).y =
      ((center (l.getD i dummyRect)).y - c.cy) *
        ((result3D c l r).getD i dummyPos).z / c.fy := by
  rw [result3D_entry c l r i hi]
  exact triangulate_pos c (center (l.getD i dummyRect)) (center (r.getD i dummyRect)) hd

/-- C4 witness: fx = 2, fy = 4, cx = 10, cy = 20, tx = -8 (B = 8); left
box center (40, 45), right box center (20, 45), so d = 20 and the
formulas give Z = 4/5, X = 12, Y = 5. -/
theorem triangulation_pinhole_formulas_witness :
    0 < numDetected ([(⟨30, 40, 20, 10⟩ : Rect)].map center)
        ([(⟨10, 40, 20, 10⟩ : Rect)].map center) ∧
    (0 : ℚ) < (center ([(⟨30, 40, 20, 10⟩ : Rect)].getD 0 dummyRect)).x -
        (center ([(⟨10, 40, 20, 10⟩ : Rect)].getD 0 dummyRect)).x ∧
    ((result3D ⟨2, 4, 10, 20, -8⟩ [⟨30, 40, 20, 10⟩] [⟨10, 40, 20, 10⟩]).getD 0 dummyPos).z =
      (2 : ℚ) * |(-8 : ℚ)| /
        ((center ([(⟨30, 40, 20, 10⟩ : Rect)].getD 0 dummyRect)).x -
          (center ([(⟨10, 40, 20, 10⟩ : Rect)].getD 0 dummyRect)).x) :=
  ⟨by simp [numDetected], by norm_num [center],
    (triangulation_pinhole_formulas ⟨2, 4, 10, 20, -8⟩
      [⟨30, 40, 20, 10⟩] [⟨10, 40, 20, 10⟩] 0 (by simp [numDetected])
      (by norm_num [center])).1⟩

/-- C5: a correspondence with non-positive disparity
`d = centerLeft.x - centerRight.x ≤ 0` yields the sentinel (0, 0, -1). -/
theorem nonpositive_disparity_sentinel (c : Calib) (l r : List Rect) (i : Nat)
    (hi : i < numDetected (l.map center) (r.map center))
    (hd : (center (l.getD i dummyRect)).x - (center (r.getD i dummyRect)).x ≤ 0) :
    (result3D c l r).getD i dummyPos = sentinelPos := by
  rw [result3D_entry c l r i hi]
  exact triangulate_nonpos c (center (l.getD i dummyRect)) (center (r.getD i dummyRect)) hd

/-- C5 witness: left center x = 20, right center x = 40, so d = -20 ≤ 0
and the emitted entry is the sentinel. -/
theorem nonpositive_disparity_sentinel_witness :
    0 < numDetected ([(⟨10, 40, 20, 10⟩ : Rect)].map center)
        ([(⟨30, 40, 20, 10⟩ : Rect)].map center) ∧
    (center ([(⟨10, 40, 20, 10⟩ : Rect)].getD 0 dummyRect)).x -
        (center ([(⟨30, 40, 20, 10⟩ : Rect)].getD 0 dummyRect)).x ≤ (0 : ℚ) ∧
    (result3D ⟨2, 4, 10, 20, -8⟩ [⟨10, 40, 20, 10⟩] [⟨30, 40, 20, 10⟩]).getD 0 dummyPos =
      sentinelPos :=
  ⟨by simp [numDetected], by norm_num [center],
    nonpositive_disparity_sentinel ⟨2, 4, 10, 20, -8⟩
      [⟨10, 40, 20, 10⟩] [⟨30, 40, 20, 10⟩] 0 (by simp [numDetected])
      (by norm_num [center])⟩

/-- C6: exactly `numDetected = min(|left|, |right|, 6)` index-paired
correspondences are triangulated — the i-th left box center with the
i-th right box center — and every slot from `numDetected` on holds the
sentinel. -/
theorem index_paired_correspondences_count (c : Calib) (l r : List Rect) (i : Nat)
    (hi : i < numDetected (l.map center) (r.map center)) :
    (result3D c l r).getD i dummyPos =
      triangulate c (center (l.getD i dummyRect)) (center (r.getD i dummyRect)) ∧
    (result3D c l r).drop (numDetected (l.map center) (r.map center)) =
      List.replicate (6 - numDetected (l.map center) (r.map center)) sentinelPos :=
  ⟨result3D_entry c l r i hi, result3D_drop c l r⟩

/-- C6 witness: the specification example — 8 left detections and 3 right
detections give numDetected = min(8, 3, 6) = 3; slot 2 is the
triangulation of the index-2 pair and the 3 remaining slots are
sentinels. -/
theorem index_paired_correspondences_count_witness :
    numDetected (([⟨0, 0, 2, 2⟩, ⟨10, 0, 2, 2⟩, ⟨20, 0, 2, 2⟩, ⟨30, 0, 2, 2⟩,
        ⟨40, 0, 2, 2⟩, ⟨50, 0, 2, 2⟩, ⟨60, 0, 2, 2⟩, ⟨70, 0, 2, 2⟩] : List Rect).map center)
      (([⟨0, 0, 2, 2⟩, ⟨10, 0, 2, 2⟩, ⟨20, 0, 2, 2⟩] : List Rect).map center) = 3 ∧
    (result3D ⟨2, 4, 10, 20, -8⟩
        [⟨0, 0, 2, 2⟩, ⟨10, 0, 2, 2⟩, ⟨20, 0, 2, 2⟩, ⟨30, 0, 2, 2⟩,
          ⟨40, 0, 2, 2⟩, ⟨50, 0, 2, 2⟩, ⟨60, 0, 2, 2⟩, ⟨70, 0, 2, 2⟩]
        [⟨0, 0, 2, 2⟩, ⟨10, 0, 2, 2⟩, ⟨20, 0, 2, 2⟩]).getD 2 dummyPos =
      triangulate ⟨2, 4, 10, 20, -8⟩ (center ⟨20, 0, 2, 2⟩) (center ⟨20, 0, 2, 2⟩) ∧
    (result3D ⟨2, 4, 10, 20, -8⟩
        [⟨0, 0, 2, 2⟩, ⟨10, 0, 2, 2⟩, ⟨20, 0, 2, 2⟩, ⟨30, 0, 2, 2⟩,
          ⟨40, 0, 2, 2⟩, ⟨50, 0, 2, 2⟩, ⟨60, 0, 2, 2⟩, ⟨70, 0, 2, 2⟩]
        [⟨0, 0, 2, 2⟩, ⟨10, 0, 2, 2⟩, ⟨20, 0, 2, 2⟩]).drop 3 =
      List.replicate 3 sentinelPos := by
  have hn : numDetected (([⟨0, 0, 2, 2⟩, ⟨10, 0, 2, 2⟩, ⟨20, 0, 2, 2⟩, ⟨30, 0, 2, 2⟩,
      ⟨40, 0, 2, 2⟩, ⟨50, 0, 2, 2⟩, ⟨60, 0, 2, 2⟩, ⟨70, 0, 2, 2⟩] : List Rect).map center)
      (([⟨0, 0, 2, 2⟩, ⟨10, 0, 2, 2⟩, ⟨20, 0, 2, 2⟩] : List Rect).map center) = 3 := by
    simp [numDetected]
  have h := index_paired_correspondences_count ⟨2, 4, 10, 20, -8⟩
    [⟨0, 0, 2, 2⟩, ⟨10, 0, 2, 2⟩, ⟨20, 0, 2, 2⟩, ⟨30, 0, 2, 2⟩,
      ⟨40, 0, 2, 2⟩, ⟨50, 0, 2, 2⟩, ⟨60, 0, 2, 2⟩, ⟨70, 0, 2, 2⟩]
    [⟨0, 0, 2, 2⟩, ⟨10, 0, 2, 2⟩, ⟨20, 0, 2, 2⟩] 2 (by rw [hn]; omega)
  refine ⟨hn, h.1, ?_⟩
  have h2 := h.2
  rw [hn] at h2
  simpa using h2

/-- Connection roles assignable by a valid role message. -/
inductive Role where
  | front
  | back
deriving Repr, DecidableEq

/-- `ws.OPEN` from the `ws` transport library. -/
def wsOPEN : Nat := 1

/-- One entry of the `clients` map as the broadcast loop sees it: a
connection identifier, its registered role, its transport `readyState`,
and whether `cli.send(payload)` throws for this connection. -/
structure Client where
  id : Nat
  role : Role
  readyState : Nat
  sendFails : Bool
deriving Repr, DecidableEq

/-- The connections the broadcast loop attempts to send to: every entry
of the `clients` map whose `readyState` equals `ws.OPEN`, in iteration
order. The registered role is bound in the loop destructuring but never
consulted. -/
def broadcastTargets (cs : List Client) : List Nat :=
  (cs.filter fun c => c.readyState == wsOPEN).map fun c => c.id

/-- The connections that actually receive the payload. The loop body has
no per-connection exception handler, so the first open connection whose
`send` throws ends the loop; the exception is only caught by the
`try`/`catch` wrapping all of `processStereoPair`. -/
def broadcastDelivered : List Client → List Nat
  | [] => []
  | c :: rest =>
    if c.readyState == wsOPEN then
      if c.sendFails then []
      else c.id :: broadcastDelivered rest
    else broadcastDelivered rest

/-- Append a frame record at the tail of the buffer for the given role. -/
def pushFrame (r : Role) (rec : FrameRecord) (b : Buffers) : Buffers :=
  match r with
  | Role.front => ⟨b.front ++ [rec], b.back⟩
  | Role.back => ⟨b.front, b.back ++ [rec]⟩

/-- An inbound message after JSON parsing: a role message carries the raw
role string; a frame message carries `seq`, `timestamp` and the result of
`cv.imdecode` (`none` models a decode failure). -/
inductive Msg where
  | roleMsg (role : String)
  | frameMsg (seq : Int) (timestamp : Int) (img : Option Nat)
deriving Repr, DecidableEq

/-- The server-side state the message handler can touch: the `clients`
map (connection id to registered role, in insertion order) and the two
frame buffers. -/
structure ServerState where
  clients : List (Nat × Role)
  buffers : Buffers
deriving Repr, DecidableEq

/-- JS `Map.set`: update the binding of `sid` in place if present,
otherwise append it. -/
def mapSet (sid : Nat) (r : Role) : List (Nat × Role) → List (Nat × Role)
  | [] => [(sid, r)]
  | (s, r0) :: rest =>
    if s = sid then (s, r) :: rest else (s, r0) :: mapSet sid r rest

/-- The `socket.on('message')` handler: a role message with role string
`front` or `back` sets this socket's `myRole` and the clients map and
nothing else; any other role string changes nothing. A frame message is
handled only when a role is assigned and the image decodes, in which case
the record is pushed onto that role's buffer and `attemptStereoPair`
runs; the third component is the pair handed to stereo processing, if
any. -/
def handleMessage (sid : Nat) (myRole : Option Role) (st : ServerState) :
    Msg → Option Role × ServerState × Option (FrameRecord × FrameRecord)
  | Msg.roleMsg s =>
    if s = "front" then
      (some Role.front, ⟨mapSet sid Role.front st.clients, st.buffers⟩, none)
    else if s = "back" then
      (some Role.back, ⟨mapSet sid Role.back st.clients, st.buffers⟩, none)
    else (myRole, st, none)
  | Msg.frameMsg seq ts img =>
    match myRole with
    | some r =>
      match img with
      | some mat =>
        let bufs1 := pushFrame r ⟨seq, ts, mat⟩ st.buffers
        let scanned := attemptStereoPair bufs1
        (myRole, ⟨st.clients, scanned.1⟩, scanned.2)
      | none => (myRole, st, none)
    | none => (myRole, st, none)

/-- Calibration-geometry derivation calls, tracked per call site. -/
inductive GeomOp where
  | stereoRectifyCall
  | initUndistortRectifyMapCall
deriving Repr, DecidableEq

/-- Geometry work done once at module load: the single `cv.stereoRectify`
call that produces R1, R2, P1, P2 and Q. -/
def startupGeomOps : List GeomOp := [GeomOp.stereoRectifyCall]

/-- Geometry work done inside `processStereoPair` on every invocation:
the two `cv.initUndistortRectifyMap` calls building `mapL` and `mapR`. -/
def perPairGeomOps : List GeomOp :=
  [GeomOp.initUndistortRectifyMapCall, GeomOp.initUndistortRectifyMapCall]

/-- The geometry-derivation call trace after startup plus `n` processed
frame pairs. -/
def geomOpsAfterPairs (n : Nat) : List GeomOp :=
  startupGeomOps ++ (List.replicate n perPairGeomOps).flatten

/-- Number of undistort/rectify-map computations in the trace. -/
def mapComputations (n : Nat) : Nat :=
  (geomOpsAfterPairs n).count GeomOp.initUndistortRectifyMapCall

theorem flatten_replicate_count (n : Nat) :
    (List.replicate n perPairGeomOps).flatten.count
        GeomOp.initUndistortRectifyMapCall = 2 * n := by
  induction n with
  | zero => rfl
  | succ k ih =>
    rw [List.replicate_succ]
    simp only [List.flatten_cons, List.count_append, ih]
    have h2 : List.count GeomOp.initUndistortRectifyMapCall perPairGeomOps = 2 := by
      decide
    omega

/-- C7: the undistort/rectify maps are recomputed inside
`processStereoPair` on every pair — the trace holds `2 * n` map
computations after `n` pairs, growing with `n` instead of staying at the
startup-only amount, so the cached-at-startup claim fails on the code. -/
theorem undistort_maps_recomputed_every_pair (n : Nat) :
    mapComputations n = 2 * n := by
  simp only [mapComputations, geomOpsAfterPairs, List.count_append,
    flatten_replicate_count]
  have h0 : List.count GeomOp.initUndistortRectifyMapCall startupGeomOps = 0 := by
    decide
  omega

/-- C8: the broadcast loop of `processStereoPair` has no per-connection
failure isolation — with two open connections where the first send
throws, the second open connection receives nothing. -/
theorem send_failure_aborts_broadcast_loop :
    broadcastDelivered
        [⟨0, Role.front, wsOPEN, true⟩, ⟨1, Role.back, wsOPEN, false⟩] = [] ∧
    (⟨1, Role.back, wsOPEN, false⟩ : Client).readyState = wsOPEN ∧
    broadcastDelivered
        [⟨0, Role.front, wsOPEN, false⟩, ⟨1, Role.back, wsOPEN, false⟩] = [0, 1] := by
  refine ⟨rfl, rfl, rfl⟩

/-- C9: the broadcast loop attempts delivery to every open connection in
the clients map regardless of role: every open client is a target, and
reassigning the roles arbitrarily leaves the target list unchanged. -/
theorem broadcast_ignores_roles (cs : List Client) :
    (∀ c, c ∈ cs → c.readyState = wsOPEN → c.id ∈ broadcastTargets cs) ∧
    ∀ f : Client → Role,
      broadcastTargets (cs.map fun c => { c with role := f c }) =
        broadcastTargets cs := by
  constructor
  · intro c hc hopen
    exact List.mem_map.mpr ⟨c, List.mem_filter.mpr ⟨hc, by simp [hopen]⟩, rfl⟩
  · intro f
    induction cs with
    | nil => rfl
    | cons c rest ih =>
      simp only [List.map_cons, broadcastTargets, List.filter_cons] at ih ⊢
      by_cases h : c.readyState == wsOPEN
      · simp only [h, if_pos] at ih ⊢
        simp_all
      · simp only [h] at ih ⊢
        simp_all

/-- C9 witness: with one open front connection and one open back
connection, the open front connection is among the broadcast targets. -/
theorem broadcast_ignores_roles_witness :
    (0 : Nat) ∈ broadcastTargets
      [⟨0, Role.front, wsOPEN, false⟩, ⟨1, Role.back, wsOPEN, false⟩] :=
  (broadcast_ignores_roles
      [⟨0, Role.front, wsOPEN, false⟩, ⟨1, Role.back, wsOPEN, false⟩]).1
    ⟨0, Role.front, wsOPEN, false⟩ (by decide) rfl

/-- C10: a role message whose role string is neither "front" nor "back"
leaves the socket's assigned role, the clients map and the buffers all
unchanged, and a subsequent frame message from that socket is still
buffered under the originally registered role. -/
theorem invalid_role_message_ignored (sid : Nat) (r : Role) (st : ServerState)
    (s : String) (h1 : s ≠ "front") (h2 : s ≠ "back") :
    handleMessage sid (some r) st (Msg.roleMsg s) = (some r, st, none) ∧
    ∀ (q t : Int) (im : Nat),
      handleMessage sid (some r) st (Msg.frameMsg q t (some im)) =
        (some r,
          ⟨st.clients, (attemptStereoPair (pushFrame r ⟨q, t, im⟩ st.buffers)).1⟩,
          (attemptStereoPair (pushFrame r ⟨q, t, im⟩ st.buffers)).2) := by
  constructor
  · simp [handleMessage, h1, h2]
  · intro q t im
    rfl

/-- C10 witness: the role string "left" is ignored for a connection
registered as front, leaving role, registry and buffers unchanged. -/
theorem invalid_role_message_ignored_witness :
    handleMessage 0 (some Role.front) ⟨[(0, Role.front)], ⟨[], []⟩⟩
        (Msg.roleMsg "left") =
      (some Role.front, ⟨[(0, Role.front)], ⟨[], []⟩⟩, none) :=
  (invalid_role_message_ignored 0 Role.front ⟨[(0, Role.front)], ⟨[], []⟩⟩ "left"
    (by decide) (by decide)).1

end StereoServer
